import Mathlib

/-!
Verification of the optimize-size asset pipeline.

This file gives a shallow embedding of the scanner, compressor, audio
compressor, estimation and HTTP-handler validation logic of the repository
(src/scanner.js, src/compressor.js, src/audioCompressor.js, app.js), and
proves or refutes the frozen specification claims about them.

Filesystem trees are modelled by the inductive `FSNode`; effectful steps
(stat, readdir, transcode, unlink, rename, write) are modelled by explicit
success flags and result oracles so that every exit path of the source,
including failure paths, has a counterpart here.
-/

/-- Extension table of `fileTypeMap` in src/scanner.js, in source order. -/
def fileTypeMap : List (String × List String) := [
  ("image", [".png", ".jpg", ".jpeg", ".gif", ".webp", ".bmp", ".tga", ".psd"]),
  ("script", [".ts", ".js", ".json"]),
  ("audio", [".mp3", ".wav", ".ogg", ".m4a", ".aac"]),
  ("model", [".fbx", ".gltf", ".glb", ".obj", ".dae"]),
  ("prefab", [".prefab"]),
  ("meta", [".meta"]),
  ("material", [".mtl", ".material"]),
  ("animation", [".anim", ".animation"]),
  ("scene", [".scene", ".fire"])]

/-- First category whose extension list contains `ext`, else "other". -/
def lookupType : List (String × List String) → String → String
  | [], _ => "other"
  | (t, exts) :: rest, ext => if ext ∈ exts then t else lookupType rest ext

/-- ASCII lowercasing of one character (the file names handled by the
source are ASCII; JS `toLowerCase`). -/
def lowerChar (c : Char) : Char :=
  if 'A' ≤ c ∧ c ≤ 'Z' then Char.ofNat (c.toNat + 32) else c

def toLowerStr (s : String) : String := ⟨s.data.map lowerChar⟩

/-- JS `split('.')` on the character list: split at every dot. -/
def splitOnDot : List Char → List (List Char)
  | [] => [[]]
  | c :: rest =>
      if c = '.' then [] :: splitOnDot rest
      else
        match splitOnDot rest with
        | [] => [[c]]
        | seg :: segs => (c :: seg) :: segs

def splitDot (s : String) : List String := (splitOnDot s.data).map (fun l => ⟨l⟩)

/-- JS `startsWith('.')`. -/
def startsWithDot (s : String) : Bool :=
  match s.data with
  | [] => false
  | c :: _ => c = '.'

/-- `getFileType` of src/scanner.js: the extension is the last
dot-separated segment of the filename, lowercased, with a dot prepended
(`'.' + filename.split('.').pop().toLowerCase()`). -/
def getFileType (filename : String) : String :=
  lookupType fileTypeMap ("." ++ toLowerStr (splitDot filename).getLast!)

/-- A filesystem tree node.  `statOk` models whether `fs.statSync` on the
entry succeeds; `readable` models whether `readdirSync` on a directory
succeeds.  File `size` is the stat size in bytes. -/
inductive FSNode where
  | file (name : String) (size : Nat) (statOk : Bool)
  | dir (name : String) (statOk : Bool) (readable : Bool) (children : List FSNode)
deriving Repr

/-- One entry of the scan result `files` array. -/
structure FileEntry where
  name : String
  path : String
  size : Nat
  type : String
deriving Repr, DecidableEq

/-- Folder tree node of the scan result (name, children map in insertion
order, aggregate size, aggregate file count). -/
inductive FolderNode where
  | mk (name : String) (children : List (String × FolderNode)) (size : Nat) (fileCount : Nat)
deriving Repr

def FolderNode.size : FolderNode → Nat
  | .mk _ _ s _ => s

def FolderNode.fileCount : FolderNode → Nat
  | .mk _ _ _ c => c

/-- `typeStats` object: association list type ↦ (count, size), keys in
insertion order as in the JS object. -/
abbrev TypeStats := List (String × Nat × Nat)

/-- The scanner's typeStats update: create the bucket on first sight, then
`count++` and `size += size`. -/
def tsUpsert : TypeStats → String → Nat → TypeStats
  | [], t, s => [(t, 1, s)]
  | (t', c, sz) :: rest, t, s =>
      if t' = t then (t', c + 1, sz + s) :: rest
      else (t', c, sz) :: tsUpsert rest t s

def tsTotalSize (ts : TypeStats) : Nat := (ts.map (fun e => e.2.2)).sum

def tsTotalCount (ts : TypeStats) : Nat := (ts.map (fun e => e.2.1)).sum

/-- `relativePath ? relativePath + '/' + item : item` -/
def joinRel (relPath name : String) : String :=
  if relPath = "" then name else relPath ++ "/" ++ name

/-- Result of scanning one directory's entry list. -/
structure ScanOut where
  files : List FileEntry
  children : List (String × FolderNode)
  size : Nat
  fileCount : Nat
  stats : TypeStats

/-- The recursive `scan` of `scanDirectory` (src/scanner.js): entries whose
stat fails are skipped; directories named with a leading dot or
`node_modules` are skipped entirely; an unreadable directory is entered as
a child but contributes nothing; files are classified and accumulated into
the entry list, the folder totals and the type stats (threaded through in
traversal order). -/
def scanItems : List FSNode → String → TypeStats → ScanOut
  | [], _, ts => ⟨[], [], 0, 0, ts⟩
  | FSNode.file name size so :: rest, relPath, ts =>
      if so then
        let t := getFileType name
        let o := scanItems rest relPath (tsUpsert ts t size)
        ⟨⟨name, joinRel relPath name, size, t⟩ :: o.files, o.children,
          size + o.size, 1 + o.fileCount, o.stats⟩
      else scanItems rest relPath ts
  | FSNode.dir name so rd children :: rest, relPath, ts =>
      if so then
        if startsWithDot name || name == "node_modules" then
          scanItems rest relPath ts
        else
          let c := if rd then scanItems children (joinRel relPath name) ts
                   else ⟨[], [], 0, 0, ts⟩
          let o := scanItems rest relPath c.stats
          ⟨c.files ++ o.files,
            (name, FolderNode.mk name c.children c.size c.fileCount) :: o.children,
            c.size + o.size, c.fileCount + o.fileCount, o.stats⟩
      else scanItems rest relPath ts
termination_by items _ _ => sizeOf items
decreasing_by all_goals (simp_wf; try omega)

/-- Scan result of `scanDirectory`. -/
structure ScanResult where
  files : List FileEntry
  folderTree : FolderNode
  typeStats : TypeStats
  rootPath : String

/-- `scanDirectory(dir)`: the root folder node starts at zero; if the root
readdir fails the scan silently returns the empty result. -/
def scanDirectory (dirName : String) (rootReadable : Bool) (rootItems : List FSNode) :
    ScanResult :=
  let o := if rootReadable then scanItems rootItems "" [] else ⟨[], [], 0, 0, []⟩
  ⟨o.files, FolderNode.mk dirName o.children o.size o.fileCount, o.stats, dirName⟩

def sumSizes (fs : List FileEntry) : Nat := (fs.map FileEntry.size).sum

theorem sumSizes_nil : sumSizes [] = 0 := rfl

theorem sumSizes_cons (f : FileEntry) (l : List FileEntry) :
    sumSizes (f :: l) = f.size + sumSizes l := by
  simp [sumSizes]

theorem sumSizes_append (a b : List FileEntry) :
    sumSizes (a ++ b) = sumSizes a + sumSizes b := by
  simp [sumSizes]

theorem tsUpsert_totalSize (ts : TypeStats) (t : String) (s : Nat) :
    tsTotalSize (tsUpsert ts t s) = tsTotalSize ts + s := by
  induction ts with
  | nil => simp [tsUpsert, tsTotalSize]
  | cons hd rest ih =>
    obtain ⟨t', c, sz⟩ := hd
    by_cases h : t' = t <;> simp [tsUpsert, tsTotalSize, h] at * <;> omega

theorem tsUpsert_totalCount (ts : TypeStats) (t : String) (s : Nat) :
    tsTotalCount (tsUpsert ts t s) = tsTotalCount ts + 1 := by
  induction ts with
  | nil => simp [tsUpsert, tsTotalCount]
  | cons hd rest ih =>
    obtain ⟨t', c, sz⟩ := hd
    by_cases h : t' = t <;> simp [tsUpsert, tsTotalCount, h] at * <;> omega

/-- Main structural invariant of the scanner: the aggregate size of a
directory's entry list equals the sum of the produced file entries' sizes,
the aggregate file count equals their number, and the threaded type stats
grow by exactly those totals. -/
theorem scanItems_invariant (items : List FSNode) (relPath : String) (ts : TypeStats) :
    (scanItems items relPath ts).size = sumSizes (scanItems items relPath ts).files ∧
    (scanItems items relPath ts).fileCount = (scanItems items relPath ts).files.length ∧
    tsTotalSize (scanItems items relPath ts).stats
      = tsTotalSize ts + sumSizes (scanItems items relPath ts).files ∧
    tsTotalCount (scanItems items relPath ts).stats
      = tsTotalCount ts + (scanItems items relPath ts).files.length := by
  induction items, relPath, ts using scanItems.induct with
  | case1 relPath ts =>
    simp [scanItems, sumSizes]
  | case2 name size rest relPath ts t ih =>
    rw [show t = getFileType name from rfl] at ih
    simp [scanItems, sumSizes_cons, tsUpsert_totalSize, tsUpsert_totalCount] at ih ⊢
    omega
  | case3 name size so rest relPath ts hso ih =>
    simp only [Bool.not_eq_true] at hso
    simp [scanItems, hso, ih]
  | case4 name rd children rest relPath ts hskip ih =>
    simp [scanItems, hskip, ih]
  | case5 name rd children rest relPath ts hskip c ihc ihr =>
    simp only [Bool.not_eq_true] at hskip
    cases rd with
    | true =>
      have hc : c = scanItems children (joinRel relPath name) ts := rfl
      rw [hc] at ihr
      simp [scanItems, hskip, sumSizes_append] at ihc ihr ⊢
      omega
    | false =>
      have hc : c = ScanOut.mk [] [] 0 0 ts := rfl
      rw [hc] at ihr
      simp [scanItems, hskip, sumSizes_append] at ihr ⊢
      omega
  | case6 name so rd children rest relPath ts hso ih =>
    simp only [Bool.not_eq_true] at hso
    simp [scanItems, hso, ih]

/-- C1: for every directory tree scanned by `scanDirectory`, the root
folder node's aggregate size equals the sum of `size` over all file
entries, the sum of `typeStats[*].size` equals that same sum, and the sum
of `typeStats[*].count` equals the number of file entries. -/
theorem C1_scan_aggregates (dirName : String) (rootReadable : Bool) (rootItems : List FSNode) :
    (scanDirectory dirName rootReadable rootItems).folderTree.size
        = sumSizes (scanDirectory dirName rootReadable rootItems).files ∧
    tsTotalSize (scanDirectory dirName rootReadable rootItems).typeStats
        = sumSizes (scanDirectory dirName rootReadable rootItems).files ∧
    tsTotalCount (scanDirectory dirName rootReadable rootItems).typeStats
        = (scanDirectory dirName rootReadable rootItems).files.length := by
  have h1 := (scanItems_invariant rootItems "" []).1
  have h3 := (scanItems_invariant rootItems "" []).2.2.1
  have h4 := (scanItems_invariant rootItems "" []).2.2.2
  by_cases hr : rootReadable
  · simp only [tsTotalSize, tsTotalCount, List.map_nil, List.sum_nil, Nat.zero_add] at h1 h3 h4
    simp only [scanDirectory, FolderNode.size, hr, if_pos]
    exact ⟨h1, h3, h4⟩
  · simp [scanDirectory, FolderNode.size, hr, tsTotalSize, tsTotalCount, sumSizes]

/-- `path.extname(name)` for a plain file name: the suffix from the last
dot, unless the only dot is the leading character or there is no dot. -/
def extname (name : String) : String :=
  match splitDot name with
  | [] => ""
  | [_] => ""
  | first :: rest =>
      if first = "" ∧ rest.length = 1 then "" else "." ++ rest.getLast!

def imageExtensions : List String := [".png", ".jpg", ".jpeg", ".webp"]

def audioExtensions : List String := [".mp3", ".ogg", ".wav", ".m4a"]

/-- Per-file outcome record returned by `compressImage` (src/compressor.js). -/
structure ImgOutcome where
  success : Bool
  originalSize : Nat
  newSize : Nat
  saved : Int
  skipped : Bool
  reason : Option String
deriving Repr, DecidableEq

/-- Running `results` object of `compressDirectory` (src/compressor.js). -/
structure BatchResults where
  total : Nat
  compressed : Nat
  skipped : Nat
  failed : Nat
  originalSize : Nat
  newSize : Nat
  savedSize : Int
  files : List (String × ImgOutcome)
deriving Repr, DecidableEq

/-- The matching-file step of `compressDirectory.scanDir`: `total++`,
accumulate the three byte sums, bump exactly one of
compressed/skipped/failed, append the per-file record. -/
def foldOutcome (r : BatchResults) (p : String) (o : ImgOutcome) : BatchResults :=
  { total := r.total + 1
    compressed := if o.success && !o.skipped then r.compressed + 1 else r.compressed
    skipped := if o.success && o.skipped then r.skipped + 1 else r.skipped
    failed := if !o.success then r.failed + 1 else r.failed
    originalSize := r.originalSize + o.originalSize
    newSize := r.newSize + o.newSize
    savedSize := r.savedSize + o.saved
    files := r.files ++ [(p, o)] }

/-- Directory walk of `compressDirectory.scanDir` (src/compressor.js):
every directory is entered (there are no name-based skip rules here,
unlike the scanner); files with an image extension are processed in
traversal order; a failing readdir rejects the whole batch.  `oracle`
gives the outcome `compressImage` produces for a relative path. -/
def batchScan (oracle : String → ImgOutcome) :
    List FSNode → String → BatchResults → Except String BatchResults
  | [], _, r => .ok r
  | FSNode.file name _ _ :: rest, rel, r =>
      if toLowerStr (extname name) ∈ imageExtensions then
        batchScan oracle rest rel (foldOutcome r (joinRel rel name) (oracle (joinRel rel name)))
      else batchScan oracle rest rel r
  | FSNode.dir name _ rd children :: rest, rel, r =>
      if rd then
        match batchScan oracle children (joinRel rel name) r with
        | .ok r2 => batchScan oracle rest rel r2
        | .error e => .error e
      else .error "readdir failed"
termination_by l _ _ => sizeOf l
decreasing_by all_goals (simp_wf; try omega)

def emptyBatch : BatchResults := ⟨0, 0, 0, 0, 0, 0, 0, []⟩

/-- `compressDirectory(rootDir, options, cb)`: run the walk from the root
with zeroed results. -/
def compressDirectoryModel (oracle : String → ImgOutcome) (rootReadable : Bool)
    (rootItems : List FSNode) : Except String BatchResults :=
  if rootReadable then batchScan oracle rootItems "" emptyBatch
  else .error "readdir failed"

/-- Per-file outcome record returned by `compressAudio`
(src/audioCompressor.js).  Fields absent on the failure path of the source
(formats, converted) are modelled by `none` / `false`, matching JS
`undefined` falsiness. -/
structure AudioOutcome where
  success : Bool
  originalSize : Nat
  newSize : Nat
  saved : Int
  skipped : Bool
  reason : Option String
  originalFormat : Option String
  newFormat : Option String
  converted : Bool
deriving Repr, DecidableEq

/-- Running `results` object of `compressAudioDirectory`. -/
structure AudioBatch where
  total : Nat
  compressed : Nat
  converted : Nat
  skipped : Nat
  failed : Nat
  originalSize : Nat
  newSize : Nat
  savedSize : Int
  files : List (String × AudioOutcome)
deriving Repr, DecidableEq

/-- The matching-file step of `compressAudioDirectory.scanDir`. -/
def foldAudioOutcome (r : AudioBatch) (p : String) (o : AudioOutcome) : AudioBatch :=
  { total := r.total + 1
    compressed := if o.success && !o.skipped then r.compressed + 1 else r.compressed
    converted := if o.success && !o.skipped && o.converted then r.converted + 1 else r.converted
    skipped := if o.success && o.skipped then r.skipped + 1 else r.skipped
    failed := if !o.success then r.failed + 1 else r.failed
    originalSize := r.originalSize + o.originalSize
    newSize := r.newSize + o.newSize
    savedSize := r.savedSize + o.saved
    files := r.files ++ [(p, o)] }

/-- Directory walk of `compressAudioDirectory.scanDir`: identical shape to
the image walk, filtering by audio extensions. -/
def audioBatchScan (oracle : String → AudioOutcome) :
    List FSNode → String → AudioBatch → Except String AudioBatch
  | [], _, r => .ok r
  | FSNode.file name _ _ :: rest, rel, r =>
      if toLowerStr (extname name) ∈ audioExtensions then
        audioBatchScan oracle rest rel
          (foldAudioOutcome r (joinRel rel name) (oracle (joinRel rel name)))
      else audioBatchScan oracle rest rel r
  | FSNode.dir name _ rd children :: rest, rel, r =>
      if rd then
        match audioBatchScan oracle children (joinRel rel name) r with
        | .ok r2 => audioBatchScan oracle rest rel r2
        | .error e => .error e
      else .error "readdir failed"
termination_by l _ _ => sizeOf l
decreasing_by all_goals (simp_wf; try omega)

def emptyAudioBatch : AudioBatch := ⟨0, 0, 0, 0, 0, 0, 0, 0, []⟩

def compressAudioDirectoryModel (oracle : String → AudioOutcome) (rootReadable : Bool)
    (rootItems : List FSNode) : Except String AudioBatch :=
  if rootReadable then audioBatchScan oracle rootItems "" emptyAudioBatch
  else .error "readdir failed"

/-- Number of files with an image extension anywhere in the trees,
entering every directory (hidden and dependency-cache ones included). -/
def matchCount : List FSNode → Nat
  | [] => 0
  | FSNode.file name _ _ :: rest =>
      (if toLowerStr (extname name) ∈ imageExtensions then 1 else 0) + matchCount rest
  | FSNode.dir _ _ _ children :: rest => matchCount children + matchCount rest
termination_by l => sizeOf l
decreasing_by all_goals (simp_wf; try omega)

/-- Number of files with an audio extension anywhere in the trees. -/
def audioMatchCount : List FSNode → Nat
  | [] => 0
  | FSNode.file name _ _ :: rest =>
      (if toLowerStr (extname name) ∈ audioExtensions then 1 else 0) + audioMatchCount rest
  | FSNode.dir _ _ _ children :: rest => audioMatchCount children + audioMatchCount rest
termination_by l => sizeOf l
decreasing_by all_goals (simp_wf; try omega)

theorem foldOutcome_buckets (r : BatchResults) (p : String) (o : ImgOutcome) :
    (foldOutcome r p o).total = r.total + 1 ∧
    (foldOutcome r p o).compressed + (foldOutcome r p o).skipped + (foldOutcome r p o).failed
      = r.compressed + r.skipped + r.failed + 1 := by
  cases hs : o.success <;> cases hk : o.skipped <;>
    simp [foldOutcome, hs, hk] <;> omega

theorem foldAudioOutcome_buckets (r : AudioBatch) (p : String) (o : AudioOutcome) :
    (foldAudioOutcome r p o).total = r.total + 1 ∧
    (foldAudioOutcome r p o).compressed + (foldAudioOutcome r p o).skipped
        + (foldAudioOutcome r p o).failed
      = r.compressed + r.skipped + r.failed + 1 := by
  cases hs : o.success <;> cases hk : o.skipped <;>
    simp [foldAudioOutcome, hs, hk] <;> omega

/-- Over the image batch walk, the running total and the bucket sum both
grow by exactly the number of extension-matching files under the visited
entries — every directory is entered regardless of its name. -/
theorem batchScan_counts (oracle : String → ImgOutcome) (items : List FSNode)
    (rel : String) (r r2 : BatchResults)
    (h : batchScan oracle items rel r = .ok r2) :
    r2.total = r.total + matchCount items ∧
    r2.compressed + r2.skipped + r2.failed
      = r.compressed + r.skipped + r.failed + matchCount items := by
  induction items, rel, r using batchScan.induct oracle generalizing r2 with
  | case1 rel r =>
    simp only [batchScan] at h
    cases h
    simp [matchCount]
  | case2 name sz so rest rel r hmatch ih =>
    simp only [batchScan, hmatch, if_pos] at h
    have hb := foldOutcome_buckets r (joinRel rel name) (oracle (joinRel rel name))
    have := ih r2 h
    simp [matchCount, hmatch]
    omega
  | case3 name sz so rest rel r hmatch ih =>
    simp only [batchScan, hmatch] at h
    have := ih r2 h
    simp [matchCount, hmatch]
    omega
  | case4 name so children rest rel r rmid hmid ihc ihr =>
    simp only [batchScan, hmid] at h
    have h1 := ihc rmid hmid
    have h2 := ihr r2 h
    simp [matchCount]
    omega
  | case5 name so children rest rel r e hmid ihc =>
    simp [batchScan, hmid] at h
  | case6 name so rd children rest rel r hnrd =>
    simp [batchScan, hnrd] at h

/-- Audio analogue of `batchScan_counts`. -/
theorem audioBatchScan_counts (oracle : String → AudioOutcome) (items : List FSNode)
    (rel : String) (r r2 : AudioBatch)
    (h : audioBatchScan oracle items rel r = .ok r2) :
    r2.total = r.total + audioMatchCount items ∧
    r2.compressed + r2.skipped + r2.failed
      = r.compressed + r.skipped + r.failed + audioMatchCount items := by
  induction items, rel, r using audioBatchScan.induct oracle generalizing r2 with
  | case1 rel r =>
    simp only [audioBatchScan] at h
    cases h
    simp [audioMatchCount]
  | case2 name sz so rest rel r hmatch ih =>
    simp only [audioBatchScan, hmatch, if_pos] at h
    have hb := foldAudioOutcome_buckets r (joinRel rel name) (oracle (joinRel rel name))
    have := ih r2 h
    simp [audioMatchCount, hmatch]
    omega
  | case3 name sz so rest rel r hmatch ih =>
    simp only [audioBatchScan, hmatch] at h
    have := ih r2 h
    simp [audioMatchCount, hmatch]
    omega
  | case4 name so children rest rel r rmid hmid ihc ihr =>
    simp only [audioBatchScan, hmid] at h
    have h1 := ihc rmid hmid
    have h2 := ihr r2 h
    simp [audioMatchCount]
    omega
  | case5 name so children rest rel r e hmid ihc =>
    simp [audioBatchScan, hmid] at h
  | case6 name so rd children rest rel r hnrd =>
    simp [audioBatchScan, hnrd] at h

/-- C2: for every completed run of `compressDirectory` or
`compressAudioDirectory`, each matching file bumps exactly one of
compressed/skipped/failed, so `total = compressed + skipped + failed`
holds in the returned results (and each fold step preserves it). -/
theorem C2_batch_total_invariant :
    (∀ (oracle : String → ImgOutcome) (rootReadable : Bool) (rootItems : List FSNode)
        (r : BatchResults),
      compressDirectoryModel oracle rootReadable rootItems = .ok r →
      r.total = r.compressed + r.skipped + r.failed) ∧
    (∀ (oracle : String → AudioOutcome) (rootReadable : Bool) (rootItems : List FSNode)
        (r : AudioBatch),
      compressAudioDirectoryModel oracle rootReadable rootItems = .ok r →
      r.total = r.compressed + r.skipped + r.failed) := by
  constructor
  · intro oracle rootReadable rootItems r h
    by_cases hr : rootReadable
    · simp only [compressDirectoryModel, hr, if_pos] at h
      have := batchScan_counts oracle rootItems "" emptyBatch r h
      simp [emptyBatch] at this
      omega
    · simp [compressDirectoryModel, hr] at h
  · intro oracle rootReadable rootItems r h
    by_cases hr : rootReadable
    · simp only [compressAudioDirectoryModel, hr, if_pos] at h
      have := audioBatchScan_counts oracle rootItems "" emptyAudioBatch r h
      simp [emptyAudioBatch] at this
      omega
    · simp [compressAudioDirectoryModel, hr] at h

instance {e a : Type} [DecidableEq e] [DecidableEq a] : DecidableEq (Except e a) :=
  fun x y =>
    match x, y with
    | .ok u, .ok v =>
        if h : u = v then .isTrue (by rw [h]) else .isFalse (by simp [h])
    | .error u, .error v =>
        if h : u = v then .isTrue (by rw [h]) else .isFalse (by simp [h])
    | .ok _, .error _ => .isFalse (by simp)
    | .error _, .ok _ => .isFalse (by simp)

def demoImgOutcome : ImgOutcome := ⟨true, 10, 4, 6, false, none⟩

def demoAudioOutcome : AudioOutcome :=
  ⟨true, 20, 25, -5, false, none, some "wav", some "mp3", true⟩

def demoItems : List FSNode :=
  [FSNode.file "a.png" 10 true, FSNode.file "b.txt" 3 true,
   FSNode.dir "sub" true true [FSNode.file "c.wav" 20 true]]

theorem C2_batch_total_invariant_witness :
    (compressDirectoryModel (fun _ => demoImgOutcome) true demoItems
        = .ok (foldOutcome emptyBatch "a.png" demoImgOutcome) ∧
      (foldOutcome emptyBatch "a.png" demoImgOutcome).total
        = (foldOutcome emptyBatch "a.png" demoImgOutcome).compressed
          + (foldOutcome emptyBatch "a.png" demoImgOutcome).skipped
          + (foldOutcome emptyBatch "a.png" demoImgOutcome).failed) ∧
    (compressAudioDirectoryModel (fun _ => demoAudioOutcome) true demoItems
        = .ok (foldAudioOutcome emptyAudioBatch "sub/c.wav" demoAudioOutcome) ∧
      (foldAudioOutcome emptyAudioBatch "sub/c.wav" demoAudioOutcome).total
        = (foldAudioOutcome emptyAudioBatch "sub/c.wav" demoAudioOutcome).compressed
          + (foldAudioOutcome emptyAudioBatch "sub/c.wav" demoAudioOutcome).skipped
          + (foldAudioOutcome emptyAudioBatch "sub/c.wav" demoAudioOutcome).failed) :=
  ⟨⟨by simp +decide [compressDirectoryModel, batchScan, demoItems],
    C2_batch_total_invariant.1 (fun _ => demoImgOutcome) true demoItems
      (foldOutcome emptyBatch "a.png" demoImgOutcome)
      (by simp +decide [compressDirectoryModel, batchScan, demoItems])⟩,
   ⟨by simp +decide [compressAudioDirectoryModel, audioBatchScan, demoItems],
    C2_batch_total_invariant.2 (fun _ => demoAudioOutcome) true demoItems
      (foldAudioOutcome emptyAudioBatch "sub/c.wav" demoAudioOutcome)
      (by simp +decide [compressAudioDirectoryModel, audioBatchScan, demoItems])⟩⟩

def hiddenTree : List FSNode :=
  [FSNode.dir "node_modules" true true [FSNode.file "a.png" 5 true]]

/-- C7 counterexample: a `node_modules` directory containing `a.png`.
The scanner skips it entirely (no file entries), but the batch walk of
`compressDirectory` enters it and processes the file, so the batch does
not use the scanner's skip rules. -/
theorem C7_counterexample :
    (scanDirectory "assets" true hiddenTree).files = [] ∧
    compressDirectoryModel (fun _ => demoImgOutcome) true hiddenTree
      = .ok (foldOutcome emptyBatch "node_modules/a.png" demoImgOutcome) ∧
    (foldOutcome emptyBatch "node_modules/a.png" demoImgOutcome).total = 1 := by
  refine ⟨?_, ?_, ?_⟩
  · simp +decide [scanDirectory, scanItems, hiddenTree]
  · simp +decide [compressDirectoryModel, batchScan, hiddenTree]
  · simp +decide [foldOutcome, emptyBatch, demoImgOutcome]

/-- C7 (amended): the batch walks of `compressDirectory` and
`compressAudioDirectory` apply no name-based skip rules at all: every
directory is traversed, and the completed batch total equals the number of
extension-matching files in the whole tree — including files under
hidden-marker or dependency-cache directory names (which `matchCount` and
`audioMatchCount` count blindly to directory names). -/
theorem C7_batch_ignores_scanner_skip_rules :
    (∀ (oracle : String → ImgOutcome) (rootReadable : Bool) (rootItems : List FSNode)
        (r : BatchResults),
      compressDirectoryModel oracle rootReadable rootItems = .ok r →
      r.total = matchCount rootItems) ∧
    (∀ (oracle : String → AudioOutcome) (rootReadable : Bool) (rootItems : List FSNode)
        (r : AudioBatch),
      compressAudioDirectoryModel oracle rootReadable rootItems = .ok r →
      r.total = audioMatchCount rootItems) := by
  constructor
  · intro oracle rootReadable rootItems r h
    by_cases hr : rootReadable
    · simp only [compressDirectoryModel, hr, if_pos] at h
      have := (batchScan_counts oracle rootItems "" emptyBatch r h).1
      simpa [emptyBatch] using this
    · simp [compressDirectoryModel, hr] at h
  · intro oracle rootReadable rootItems r h
    by_cases hr : rootReadable
    · simp only [compressAudioDirectoryModel, hr, if_pos] at h
      have := (audioBatchScan_counts oracle rootItems "" emptyAudioBatch r h).1
      simpa [emptyAudioBatch] using this
    · simp [compressAudioDirectoryModel, hr] at h

theorem C7_batch_ignores_scanner_skip_rules_witness :
    compressDirectoryModel (fun _ => demoImgOutcome) true hiddenTree
      = .ok (foldOutcome emptyBatch "node_modules/a.png" demoImgOutcome) ∧
    (foldOutcome emptyBatch "node_modules/a.png" demoImgOutcome).total
      = matchCount hiddenTree :=
  ⟨by simp +decide [compressDirectoryModel, batchScan, hiddenTree],
   C7_batch_ignores_scanner_skip_rules.1 (fun _ => demoImgOutcome) true hiddenTree
     (foldOutcome emptyBatch "node_modules/a.png" demoImgOutcome)
     (by simp +decide [compressDirectoryModel, batchScan, hiddenTree])⟩

/-- The sharp formats `compressImage` re-encodes (png / jpeg / jpg / webp). -/
def supportedImage (fmt : String) : Bool :=
  fmt == "png" || fmt == "jpeg" || fmt == "jpg" || fmt == "webp"

/-- Effect environment of one `compressImage` call: result of `fs.stat`
(`none` = throws), of `sharp().metadata()` (the detected format, `none` =
throws), of `.toBuffer()` (the encoded length, `none` = throws), and
whether `fs.writeFile` succeeds. -/
structure ImgEnv where
  statResult : Option Nat
  metadataFormat : Option String
  encodeResult : Option Nat
  writeOk : Bool
deriving Repr, DecidableEq

inductive ImgAction where
  | encode
  | write
deriving Repr, DecidableEq

/-- Result of a `compressImage` call: the returned outcome, the codec
actions performed, whether the original path was overwritten, and the
byte size of the file at the original path afterwards (`none` when the
file did not exist). -/
structure ImgRun where
  outcome : ImgOutcome
  actions : List ImgAction
  fileWritten : Bool
  finalSize : Option Nat
deriving Repr, DecidableEq

/-- The catch-block outcome `{success:false, originalSize:0, newSize:0,
saved:0}` (the absent `skipped` is JS-falsy). -/
def imgFailure : ImgOutcome := ⟨false, 0, 0, 0, false, none⟩

/-- `compressImage` (src/compressor.js): stat, read metadata, bail out on
unsupported formats, re-encode to a memory buffer, and write back only
when the buffer is strictly smaller; any thrown step lands in the catch
block. -/
def compressImageModel (env : ImgEnv) : ImgRun :=
  match env.statResult with
  | none => ⟨imgFailure, [], false, none⟩
  | some originalSize =>
    match env.metadataFormat with
    | none => ⟨imgFailure, [], false, some originalSize⟩
    | some fmt =>
      if supportedImage fmt then
        match env.encodeResult with
        | none => ⟨imgFailure, [ImgAction.encode], false, some originalSize⟩
        | some newSize =>
          if newSize < originalSize then
            if env.writeOk then
              ⟨⟨true, originalSize, newSize, (originalSize : Int) - (newSize : Int), false, none⟩,
                [ImgAction.encode, ImgAction.write], true, some newSize⟩
            else
              ⟨imgFailure, [ImgAction.encode, ImgAction.write], false, some originalSize⟩
          else
            ⟨⟨true, originalSize, originalSize, 0, true, some "Compressed version is larger"⟩,
              [ImgAction.encode], false, some originalSize⟩
      else
        ⟨⟨true, originalSize, originalSize, 0, true, some "Unsupported format for compression"⟩,
          [], false, some originalSize⟩

/-- C3: for a supported format, `compressImage` overwrites the original
path exactly when the re-encoded buffer is strictly smaller (and the
write succeeds); otherwise the file keeps its original content and the
outcome is a "larger" skip with `saved = 0` and `newSize` equal to the
original size.  Unsupported formats are skipped without any encode
attempt. -/
theorem C3_compressImage_write_policy (env : ImgEnv) :
    (∀ origSize fmt newSize,
      env.statResult = some origSize →
      env.metadataFormat = some fmt →
      supportedImage fmt = true →
      env.encodeResult = some newSize →
      ((compressImageModel env).fileWritten = true ↔ env.writeOk = true ∧ newSize < origSize) ∧
      (¬ newSize < origSize →
        (compressImageModel env).finalSize = some origSize ∧
        (compressImageModel env).fileWritten = false ∧
        (compressImageModel env).outcome.skipped = true ∧
        (compressImageModel env).outcome.reason = some "Compressed version is larger" ∧
        (compressImageModel env).outcome.saved = 0 ∧
        (compressImageModel env).outcome.newSize = origSize)) ∧
    (∀ origSize fmt,
      env.statResult = some origSize →
      env.metadataFormat = some fmt →
      supportedImage fmt = false →
      (compressImageModel env).outcome.skipped = true ∧
      (compressImageModel env).outcome.reason = some "Unsupported format for compression" ∧
      ImgAction.encode ∉ (compressImageModel env).actions ∧
      (compressImageModel env).fileWritten = false ∧
      (compressImageModel env).finalSize = some origSize) := by
  constructor
  · intro origSize fmt newSize h1 h2 h3 h4
    by_cases h5 : newSize < origSize
    · by_cases h6 : env.writeOk <;>
        simp [compressImageModel, h1, h2, h3, h4, h5, h6]
    · simp [compressImageModel, h1, h2, h3, h4, h5]
  · intro origSize fmt h1 h2 h3
    simp [compressImageModel, h1, h2, h3]

def imgEnvSmall : ImgEnv := ⟨some 100, some "png", some 60, true⟩

def imgEnvUnsupported : ImgEnv := ⟨some 100, some "tiff", some 60, true⟩

theorem C3_compressImage_write_policy_witness :
    ((compressImageModel imgEnvSmall).fileWritten = true ↔ true = true ∧ 60 < 100) ∧
    (compressImageModel imgEnvUnsupported).outcome.skipped = true ∧
    ImgAction.encode ∉ (compressImageModel imgEnvUnsupported).actions :=
  ⟨((C3_compressImage_write_policy imgEnvSmall).1 100 "png" 60 rfl rfl (by decide) rfl).1,
   ((C3_compressImage_write_policy imgEnvUnsupported).2 100 "tiff" rfl rfl (by decide)).1,
   ((C3_compressImage_write_policy imgEnvUnsupported).2 100 "tiff" rfl rfl (by decide)).2.2.1⟩

/-- JS `replace('.', '')`: removes the first dot only. -/
def replaceFirstDot (s : String) : String :=
  match splitDot s with
  | [] => s
  | [x] => x
  | x :: y :: rest => x ++ y ++ String.join (rest.map (fun z => "." ++ z))

/-- `outputFormat` resolution of `compressAudio`: the explicit option, or
mp3 for WAV input, or the input's own extension without its dot. -/
def audioOutputFormat (ext : String) (format : Option String) : String :=
  match format with
  | some f => f
  | none => if ext = ".wav" then "mp3" else replaceFirstDot ext

/-- Effect environment of one `compressAudio` call: result of `fs.stat`
on the original (`none` = throws), whether the ffmpeg transcode resolves,
the size `fs.stat` reports for the temp output, and whether each
subsequent filesystem step succeeds.  A failing transcode is modelled as
leaving no temp output. -/
structure AudioEnv where
  statResult : Option Nat
  transcodeOk : Bool
  tempSize : Nat
  statTempOk : Bool
  unlinkOrigOk : Bool
  renameOk : Bool
  unlinkTempOk : Bool
deriving Repr, DecidableEq

/-- Which files exist when `compressAudio` returns: at the input path, at
the `<base>_temp.<fmt>` sibling path, and at the `<base>.<newFormat>`
path used when the format changes. -/
structure AudioFS where
  atOriginalPath : Bool
  atTempPath : Bool
  atConvertedPath : Bool
deriving Repr, DecidableEq

structure AudioRun where
  outcome : AudioOutcome
  fs : AudioFS
deriving Repr, DecidableEq

/-- The catch-block outcome of `compressAudio` (fields absent in the
source record modelled as `none` / `false`). -/
def audioFailure : AudioOutcome := ⟨false, 0, 0, 0, false, none, none, none, false⟩

/-- `compressAudio` (src/audioCompressor.js): stat the original, transcode
into a temp sibling, stat the temp, then either replace the original
(delete + rename, also when only the format differs) or delete the temp
and skip.  Any rejected step lands in the catch block, which returns the
failure outcome without touching the filesystem further.  `ext` is the
lowercased `path.extname` of the input. -/
def compressAudioModel (ext : String) (format : Option String) (env : AudioEnv) : AudioRun :=
  match env.statResult with
  | none => ⟨audioFailure, ⟨false, false, false⟩⟩
  | some originalSize =>
    let inputFmt := replaceFirstDot ext
    let outputFormat := audioOutputFormat ext format
    if env.transcodeOk = false then
      ⟨audioFailure, ⟨true, false, false⟩⟩
    else if env.statTempOk = false then
      ⟨audioFailure, ⟨true, true, false⟩⟩
    else
      let newSize := env.tempSize
      if newSize < originalSize || outputFormat != inputFmt then
        if env.unlinkOrigOk = false then
          ⟨audioFailure, ⟨true, true, false⟩⟩
        else if env.renameOk = false then
          ⟨audioFailure, ⟨false, true, false⟩⟩
        else
          ⟨⟨true, originalSize, newSize, (originalSize : Int) - (newSize : Int), false, none,
              some inputFmt, some outputFormat, outputFormat != inputFmt⟩,
            if outputFormat != inputFmt then ⟨false, false, true⟩ else ⟨true, false, false⟩⟩
      else
        if env.unlinkTempOk = false then
          ⟨audioFailure, ⟨true, true, false⟩⟩
        else
          ⟨⟨true, originalSize, originalSize, 0, true, some "Compressed version is larger",
              some inputFmt, some outputFormat, false⟩,
            ⟨true, false, false⟩⟩

/-- C4: with every filesystem step succeeding, `compressAudio` replaces
the original exactly when the new encoding is smaller or the output
format differs (the transcode lands at the original path for a same-format
run, at the converted path for a format change); when neither holds the
temp file is deleted and the outcome is a "larger" skip. -/
theorem C4_compressAudio_replace_policy (ext : String) (format : Option String)
    (env : AudioEnv) (origSize : Nat)
    (h1 : env.statResult = some origSize)
    (h2 : env.transcodeOk = true) (h3 : env.statTempOk = true)
    (h4 : env.unlinkOrigOk = true) (h5 : env.renameOk = true)
    (h6 : env.unlinkTempOk = true) :
    (compressAudioModel ext format env).outcome.success = true ∧
    ((compressAudioModel ext format env).outcome.skipped = false
      ↔ (env.tempSize < origSize ∨ audioOutputFormat ext format ≠ replaceFirstDot ext)) ∧
    ((env.tempSize < origSize ∨ audioOutputFormat ext format ≠ replaceFirstDot ext) →
      (compressAudioModel ext format env).fs.atTempPath = false ∧
      (audioOutputFormat ext format = replaceFirstDot ext →
        (compressAudioModel ext format env).fs.atOriginalPath = true) ∧
      (audioOutputFormat ext format ≠ replaceFirstDot ext →
        (compressAudioModel ext format env).fs.atOriginalPath = false ∧
        (compressAudioModel ext format env).fs.atConvertedPath = true)) ∧
    (¬ (env.tempSize < origSize ∨ audioOutputFormat ext format ≠ replaceFirstDot ext) →
      (compressAudioModel ext format env).fs.atTempPath = false ∧
      (compressAudioModel ext format env).fs.atOriginalPath = true ∧
      (compressAudioModel ext format env).outcome.skipped = true ∧
      (compressAudioModel ext format env).outcome.reason = some "Compressed version is larger" ∧
      (compressAudioModel ext format env).outcome.newSize = origSize ∧
      (compressAudioModel ext format env).outcome.saved = 0) := by
  by_cases hc : env.tempSize < origSize ∨ audioOutputFormat ext format ≠ replaceFirstDot ext
  · by_cases hf : audioOutputFormat ext format = replaceFirstDot ext
    · have hlt : env.tempSize < origSize := by
        rcases hc with h | h
        · exact h
        · exact absurd hf h
      simp [compressAudioModel, h1, h2, h3, h4, h5, h6, hf, hlt]
    · simp [compressAudioModel, h1, h2, h3, h4, h5, h6, hf]
  · push_neg at hc
    obtain ⟨hge, hfe⟩ := hc
    have hnlt : ¬ env.tempSize < origSize := Nat.not_lt.mpr hge
    simp [compressAudioModel, h1, h2, h3, h4, h5, h6, hfe, hnlt]

def audioEnvHappyLarger : AudioEnv := ⟨some 100, true, 200, true, true, true, true⟩

theorem C4_compressAudio_replace_policy_witness :
    (compressAudioModel ".wav" none audioEnvHappyLarger).outcome.success = true ∧
    ((compressAudioModel ".wav" none audioEnvHappyLarger).outcome.skipped = false
      ↔ (audioEnvHappyLarger.tempSize < 100
          ∨ audioOutputFormat ".wav" none ≠ replaceFirstDot ".wav")) :=
  ⟨(C4_compressAudio_replace_policy ".wav" none audioEnvHappyLarger 100
      rfl rfl rfl rfl rfl rfl).1,
   (C4_compressAudio_replace_policy ".wav" none audioEnvHappyLarger 100
      rfl rfl rfl rfl rfl rfl).2.1⟩

/-- Transcode succeeded (temp created, 50 bytes), but deleting the
original rejects. -/
def audioEnvUnlinkFail : AudioEnv := ⟨some 100, true, 50, true, false, true, true⟩

/-- Skip path (same format, larger result), but deleting the temp file
rejects. -/
def audioEnvUnlinkTempFail : AudioEnv := ⟨some 100, true, 150, true, true, true, false⟩

/-- C8 (refuting the claim on the code): `compressAudio` has exit paths
that leave the temp sibling on disk.  If the transcode produced the temp
file and `fs.unlink` of the original then rejects — or the skip path's
`fs.unlink` of the temp rejects — the catch block returns the failure
outcome without any cleanup, and the temp file survives the call. -/
theorem C8_temp_file_left_on_failure_path :
    (compressAudioModel ".mp3" none audioEnvUnlinkFail).outcome.success = false ∧
    (compressAudioModel ".mp3" none audioEnvUnlinkFail).fs.atTempPath = true ∧
    (compressAudioModel ".mp3" none audioEnvUnlinkTempFail).outcome.success = false ∧
    (compressAudioModel ".mp3" none audioEnvUnlinkTempFail).fs.atTempPath = true := by
  decide

/-- C10: every outcome of `compressImage` and `compressAudio` satisfies
`saved = originalSize − newSize`; skips and failures report `saved = 0`;
`saved` is negative exactly for an audio outcome that applied a format
conversion whose output is larger than the original (image outcomes are
never negative). -/
theorem C10_saved_equals_size_delta :
    (∀ env : ImgEnv,
      (compressImageModel env).outcome.saved
        = ((compressImageModel env).outcome.originalSize : Int)
          - ((compressImageModel env).outcome.newSize : Int) ∧
      (((compressImageModel env).outcome.skipped = true ∨
          (compressImageModel env).outcome.success = false) →
        (compressImageModel env).outcome.saved = 0) ∧
      0 ≤ (compressImageModel env).outcome.saved) ∧
    (∀ (ext : String) (format : Option String) (env : AudioEnv),
      (compressAudioModel ext format env).outcome.saved
        = ((compressAudioModel ext format env).outcome.originalSize : Int)
          - ((compressAudioModel ext format env).outcome.newSize : Int) ∧
      (((compressAudioModel ext format env).outcome.skipped = true ∨
          (compressAudioModel ext format env).outcome.success = false) →
        (compressAudioModel ext format env).outcome.saved = 0) ∧
      ((compressAudioModel ext format env).outcome.saved < 0 ↔
        ((compressAudioModel ext format env).outcome.converted = true ∧
          (compressAudioModel ext format env).outcome.originalSize
            < (compressAudioModel ext format env).outcome.newSize))) := by
  constructor
  · intro env
    rcases hstat : env.statResult with _ | origSize
    · simp [compressImageModel, hstat, imgFailure]
    · rcases hmeta : env.metadataFormat with _ | fmt
      · simp [compressImageModel, hstat, hmeta, imgFailure]
      · by_cases hsup : supportedImage fmt
        · rcases henc : env.encodeResult with _ | newSize
          · simp [compressImageModel, hstat, hmeta, hsup, henc, imgFailure]
          · by_cases hlt : newSize < origSize
            · by_cases hw : env.writeOk
              · simp [compressImageModel, hstat, hmeta, hsup, henc, hlt, hw]
                omega
              · simp [compressImageModel, hstat, hmeta, hsup, henc, hlt, hw, imgFailure]
            · simp [compressImageModel, hstat, hmeta, hsup, henc, hlt]
        · simp [compressImageModel, hstat, hmeta, hsup]
  · intro ext format env
    rcases hstat : env.statResult with _ | origSize
    · simp [compressAudioModel, hstat, audioFailure]
    · by_cases htc : env.transcodeOk = false
      · simp [compressAudioModel, hstat, htc, audioFailure]
      · by_cases hst : env.statTempOk = false
        · simp [compressAudioModel, hstat, htc, hst, audioFailure]
        · by_cases hfmt : audioOutputFormat ext format = replaceFirstDot ext
          · by_cases hlt : env.tempSize < origSize
            · by_cases hu : env.unlinkOrigOk = false
              · simp [compressAudioModel, hstat, htc, hst, hfmt, hlt, hu, audioFailure]
              · by_cases hrn : env.renameOk = false
                · simp [compressAudioModel, hstat, htc, hst, hfmt, hlt, hu, hrn, audioFailure]
                · simp [compressAudioModel, hstat, htc, hst, hfmt, hlt, hu, hrn]
                  omega
            · by_cases hut : env.unlinkTempOk = false
              · simp [compressAudioModel, hstat, htc, hst, hfmt, hlt, hut, audioFailure]
              · simp [compressAudioModel, hstat, htc, hst, hfmt, hlt, hut]
          · by_cases hu : env.unlinkOrigOk = false
            · simp [compressAudioModel, hstat, htc, hst, hfmt, hu, audioFailure]
            · by_cases hrn : env.renameOk = false
              · simp [compressAudioModel, hstat, htc, hst, hfmt, hu, hrn, audioFailure]
              · simp [compressAudioModel, hstat, htc, hst, hfmt, hu, hrn]

def imgEnvLargerSkip : ImgEnv := ⟨some 100, some "png", some 150, true⟩

theorem C10_saved_equals_size_delta_witness :
    (compressImageModel imgEnvLargerSkip).outcome.saved = 0 ∧
    ((compressAudioModel ".wav" none audioEnvHappyLarger).outcome.saved < 0 ↔
      ((compressAudioModel ".wav" none audioEnvHappyLarger).outcome.converted = true ∧
        (compressAudioModel ".wav" none audioEnvHappyLarger).outcome.originalSize
          < (compressAudioModel ".wav" none audioEnvHappyLarger).outcome.newSize)) :=
  ⟨(C10_saved_equals_size_delta.1 imgEnvLargerSkip).2.1 (Or.inl (by decide)),
   (C10_saved_equals_size_delta.2 ".wav" none audioEnvHappyLarger).2.2⟩

/-- Accumulator of `estimateCompression.scanDir` (src/compressor.js). -/
structure ImgEstAcc where
  totalImages : Nat
  totalSize : Nat
  files : List (String × Nat)
deriving Repr, DecidableEq

/-- Walk of `estimateCompression`: every directory entered, matching files
counted and summed; a failing readdir or stat rejects the estimate. -/
def imgEstScan : List FSNode → String → ImgEstAcc → Except String ImgEstAcc
  | [], _, acc => .ok acc
  | FSNode.file name sz so :: rest, rel, acc =>
      if toLowerStr (extname name) ∈ imageExtensions then
        if so then
          imgEstScan rest rel ⟨acc.totalImages + 1, acc.totalSize + sz,
            acc.files ++ [(joinRel rel name, sz)]⟩
        else .error "stat failed"
      else imgEstScan rest rel acc
  | FSNode.dir name _ rd children :: rest, rel, acc =>
      if rd then
        match imgEstScan children (joinRel rel name) acc with
        | .ok acc2 => imgEstScan rest rel acc2
        | .error e => .error e
      else .error "readdir failed"
termination_by l _ _ => sizeOf l
decreasing_by all_goals (simp_wf; try omega)

structure ImgEstimate where
  totalImages : Nat
  totalSize : Nat
  estimatedSaving : Nat
  files : List (String × Nat)
deriving Repr, DecidableEq

/-- `estimateCompression(rootDir)`: `Math.floor(totalSize * 0.3)`,
modelled as the exact rational floor `totalSize * 3 / 10` (the source
computes in IEEE doubles). -/
def estimateCompressionModel (rootReadable : Bool) (items : List FSNode) :
    Except String ImgEstimate :=
  if rootReadable then
    match imgEstScan items "" ⟨0, 0, []⟩ with
    | .ok acc => .ok ⟨acc.totalImages, acc.totalSize, acc.totalSize * 3 / 10, acc.files⟩
    | .error e => .error e
  else .error "readdir failed"

/-- Accumulator of `estimateAudioCompression.scanDir`. -/
structure AudioEstAcc where
  totalAudio : Nat
  totalSize : Nat
  wavFiles : Nat
  wavSize : Nat
  files : List (String × Nat × String)
deriving Repr, DecidableEq

def audioEstScan : List FSNode → String → AudioEstAcc → Except String AudioEstAcc
  | [], _, acc => .ok acc
  | FSNode.file name sz so :: rest, rel, acc =>
      if toLowerStr (extname name) ∈ audioExtensions then
        if so then
          audioEstScan rest rel
            ⟨acc.totalAudio + 1, acc.totalSize + sz,
              if toLowerStr (extname name) = ".wav" then acc.wavFiles + 1 else acc.wavFiles,
              if toLowerStr (extname name) = ".wav" then acc.wavSize + sz else acc.wavSize,
              acc.files ++ [(joinRel rel name, sz, replaceFirstDot (toLowerStr (extname name)))]⟩
        else .error "stat failed"
      else audioEstScan rest rel acc
  | FSNode.dir name _ rd children :: rest, rel, acc =>
      if rd then
        match audioEstScan children (joinRel rel name) acc with
        | .ok acc2 => audioEstScan rest rel acc2
        | .error e => .error e
      else .error "readdir failed"
termination_by l _ _ => sizeOf l
decreasing_by all_goals (simp_wf; try omega)

structure AudioEstimate where
  totalAudio : Nat
  totalSize : Nat
  wavFiles : Nat
  wavSize : Nat
  estimatedSaving : Nat
  files : List (String × Nat × String)
deriving Repr, DecidableEq

/-- `estimateAudioCompression(rootDir)` (src/audioCompressor.js:296-313):
`Math.floor(wavSize * 0.9) + Math.floor((totalSize - wavSize) * 0.3)`,
modelled as exact rational floors.  Note that all non-WAV sizes — OGG
included — get the 0.3 factor, although the source's own comment
announces "OGG re-compression: ~25% reduction". -/
def estimateAudioCompressionModel (rootReadable : Bool) (items : List FSNode) :
    Except String AudioEstimate :=
  if rootReadable then
    match audioEstScan items "" ⟨0, 0, 0, 0, []⟩ with
    | .ok acc =>
        .ok ⟨acc.totalAudio, acc.totalSize, acc.wavFiles, acc.wavSize,
          acc.wavSize * 9 / 10 + (acc.totalSize - acc.wavSize) * 3 / 10, acc.files⟩
    | .error e => .error e
  else .error "readdir failed"

/-- C9 (refuting the 25% OGG ratio): on a single 1000-byte OGG file the
code estimates `floor(0.3 · 1000) = 300` — the generic 30% ratio — not
the 25% its own comment (and the spec) state; WAV input does get the 90%
ratio and images the 30% ratio, all floored. -/
theorem C9_ogg_gets_generic_ratio :
    estimateAudioCompressionModel true [FSNode.file "music.ogg" 1000 true]
      = .ok ⟨1, 1000, 0, 0, 300, [("music.ogg", 1000, "ogg")]⟩ ∧
    (300 : Nat) ≠ 1000 * 25 / 100 ∧
    estimateAudioCompressionModel true [FSNode.file "voice.wav" 1000 true]
      = .ok ⟨1, 1000, 1, 1000, 900, [("voice.wav", 1000, "wav")]⟩ ∧
    estimateCompressionModel true [FSNode.file "a.png" 1001 true]
      = .ok ⟨1, 1001, 300, [("a.png", 1001)]⟩ := by
  refine ⟨?_, by decide, ?_, ?_⟩
  · simp +decide [estimateAudioCompressionModel, audioEstScan]
  · simp +decide [estimateAudioCompressionModel, audioEstScan]
  · simp +decide [estimateCompressionModel, imgEstScan]

/-- Segment normalization step of `path.resolve`: pop on "..", drop ".". -/
def normalizeSegs : List String → List String → List String
  | [], acc => acc.reverse
  | ".." :: rest, acc => normalizeSegs rest (acc.drop 1)
  | "." :: rest, acc => normalizeSegs rest acc
  | s :: rest, acc => normalizeSegs rest (s :: acc)

/-- A path argument arriving in a request body: absolute or relative,
as slash-separated segments. -/
structure ReqPath where
  isAbs : Bool
  segs : List String
deriving Repr, DecidableEq

/-- `path.resolve(root, p)` for a canonical absolute root. -/
def resolvePath (root : List String) (p : ReqPath) : List String :=
  if p.isAbs then normalizeSegs p.segs [] else normalizeSegs (root ++ p.segs) []

/-- Render segments as the absolute path string the handlers compare. -/
def renderPath : List String → String
  | [] => ""
  | s :: rest => "/" ++ s ++ renderPath rest

def charListPrefix : List Char → List Char → Bool
  | [], _ => true
  | _ :: _, [] => false
  | c :: cs, d :: ds => c = d && charListPrefix cs ds

/-- JS `String.prototype.startsWith`. -/
def strStartsWith (s start : String) : Bool := charListPrefix start.data s.data

/-- Containment decision of the '/api/audio/compress/single' handler
(src/unnamed/part_001:494-524): resolve `filePath` against the root and
require the resolved string to start with the root string. -/
def audioCompressSingleAccepts (root : List String) (filePath : ReqPath) : Bool :=
  strStartsWith (renderPath (resolvePath root filePath)) (renderPath root)

/-- Target-directory decision of the '/api/audio/estimate' handler
(src/unnamed/part_001:462-491): resolve `targetPath` against the root;
the only guard under its "Security check" comment is `fs.existsSync` —
there is no containment check.  Returns the directory the estimate then
runs on, or `none` when the handler rejects. -/
def audioEstimateTarget (root : List String) (targetPath : Option ReqPath)
    (dirExists : List String → Bool) : Option (List String) :=
  match targetPath with
  | none => some root
  | some p =>
      let dir := resolvePath root p
      if dirExists dir then some dir else none

/-- Target-directory decision of the '/api/audio/compress' batch handler
(src/unnamed/part_001:527-546): identical to the estimate handler —
existence only, no containment check. -/
def audioCompressBatchTarget (root : List String) (targetPath : Option ReqPath)
    (dirExists : List String → Bool) : Option (List String) :=
  match targetPath with
  | none => some root
  | some p =>
      let dir := resolvePath root p
      if dirExists dir then some dir else none

def demoRoot : List String := ["home", "user", "assets"]

/-- C5 (refuting the blanket claim): the audio estimate and audio batch
handlers never perform the containment check: the relative argument
`../..` resolves to `/home/user`, outside `/home/user/assets`, yet both
handlers accept it and run on that directory.  The audio single-file
handler, by contrast, rejects a comparable escape. -/
theorem C5_audio_handlers_skip_containment :
    audioEstimateTarget demoRoot (some ⟨false, ["..", ".."]⟩) (fun _ => true)
      = some ["home"] ∧
    strStartsWith (renderPath ["home"]) (renderPath demoRoot) = false ∧
    audioCompressBatchTarget demoRoot (some ⟨false, ["..", ".."]⟩) (fun _ => true)
      = some ["home"] ∧
    audioCompressSingleAccepts demoRoot ⟨false, ["..", "..", "..", "etc", "passwd"]⟩
      = false := by
  decide

/-- JS truthiness of the request's numeric fields: `undefined`/`null` and
`0` are falsy. -/
def jsTruthyNat : Option Nat → Bool
  | none => false
  | some n => n != 0

/-- `Math.round(num / den)` for nonnegative values: floor(x + 1/2),
modelled as exact rational rounding (the source computes in doubles). -/
def jsRound (num den : Nat) : Nat := (2 * num + den) / (2 * den)

/-- Result of one '/api/resize/single' request.  The
`validationError` constructor exists to state the specification's claim:
the handler itself never produces it. -/
inductive ResizeResult where
  | invalidPath
  | skippedSame (originalSize : Nat) (w h : Nat)
  | resized (originalSize newSize : Nat) (passedWidth passedHeight : Option Nat)
  | validationError (msg : String)
deriving Repr, DecidableEq

/-- '/api/resize/single' handler (src/unnamed/part_001:108-195):
containment check on the path, aspect-preserving derivation of a missing
dimension, a skip when the resolved dimensions equal the current ones,
then resize-and-write with whatever dimensions resulted — the handler has
no dimension-range validation.  `w0`/`h0` are the sharp metadata
dimensions, `resizedSize` the re-encoded buffer length. -/
def resizeSingleModel (root : List String) (filePath : ReqPath)
    (width height : Option Nat) (w0 h0 originalSize resizedSize : Nat) : ResizeResult :=
  if ¬ strStartsWith (renderPath (resolvePath root filePath)) (renderPath root) then
    .invalidPath
  else
    let finalWidth := if jsTruthyNat height && !jsTruthyNat width
                      then some (jsRound ((height.getD 0) * w0) h0)
                      else width
    let finalHeight := if jsTruthyNat width && !jsTruthyNat height
                       then some (jsRound ((width.getD 0) * h0) w0)
                       else height
    if finalWidth = some w0 ∧ finalHeight = some h0 then
      .skippedSame originalSize w0 h0
    else
      .resized originalSize resizedSize finalWidth finalHeight

/-- Browser-side validation of `performResize` (public/client.js:819-855):
requires at least one dimension and each given dimension within
[1, 4096]; only then is the request sent to the server. -/
def clientResizeAccepts (width height : Option Nat) : Bool :=
  match width, height with
  | none, none => false
  | _, _ =>
      let badW := match width with
        | some n => decide (n < 1) || decide (n > 4096)
        | none => false
      let badH := match height with
        | some n => decide (n < 1) || decide (n > 4096)
        | none => false
      !badW && !badH

/-- C6 counterexample: a resize request with width 5000 on a 400×300
image is not rejected — the handler derives height 3750 and proceeds to
the codec call and the write, returning a resized result. -/
theorem C6_counterexample_width_5000_not_rejected :
    resizeSingleModel demoRoot ⟨false, ["img.png"]⟩ (some 5000) none 400 300 1000 900
      = ResizeResult.resized 1000 900 (some 5000) (some 3750) := by
  decide

/-- C6 (amended): the '/api/resize/single' handler performs no
dimension-range validation at all — it never returns a validation error,
and passes even width 5000 straight to the codec — while it does derive a
missing dimension aspect-preservingly (200 on 400×300 gives height 150).
The at-least-one-dimension and [1, 4096] checks exist only in the browser
client, which refuses to send such a request. -/
theorem C6_resize_validation_is_client_side_only :
    (∀ (root : List String) (filePath : ReqPath) (width height : Option Nat)
        (w0 h0 os rs : Nat) (msg : String),
      resizeSingleModel root filePath width height w0 h0 os rs
        ≠ ResizeResult.validationError msg) ∧
    resizeSingleModel demoRoot ⟨false, ["img.png"]⟩ (some 5000) none 400 300 1000 900
      = ResizeResult.resized 1000 900 (some 5000) (some 3750) ∧
    resizeSingleModel demoRoot ⟨false, ["img.png"]⟩ (some 200) none 400 300 1000 900
      = ResizeResult.resized 1000 900 (some 200) (some 150) ∧
    clientResizeAccepts (some 5000) none = false ∧
    clientResizeAccepts none none = false ∧
    clientResizeAccepts (some 200) none = true := by
  refine ⟨?_, by decide, by decide, by decide, by decide, by decide⟩
  intro root filePath width height w0 h0 os rs msg
  unfold resizeSingleModel
  split_ifs <;> intro hcontra <;> (try rw [ite_eq_iff] at hcontra) <;> simp_all

theorem C6_resize_validation_is_client_side_only_witness :
    resizeSingleModel demoRoot ⟨false, ["img.png"]⟩ (some 5000) none 400 300 1000 900
      ≠ ResizeResult.validationError "width out of range" :=
  C6_resize_validation_is_client_side_only.1 demoRoot ⟨false, ["img.png"]⟩
    (some 5000) none 400 300 1000 900 "width out of range"
